import Mathlib

/-!
Shallow embedding of the NFT generation pipeline of `gen-nft-app`
(`src/utils/contract-override.ts`, `src/utils/minioClient.ts`,
`src/utils/config.ts`, `src/app/actions.ts`) and proofs of the
specification's claims about it.

The filesystem is modelled explicitly: source layer directories as a
listing function, decodability of image assets as a predicate, and the
files written by the generator as an association list (a later write to
the same path shadows the earlier entry, like `fs.writeFileSync`).
`Math.random()`-driven selection is modelled by an ambient stream of
natural numbers `rand : Nat → Nat`; the JS expression
`Math.floor(Math.random() * images.length)` yields an arbitrary index in
`[0, images.length)`, embedded as `rand k % images.length`, which ranges
over exactly the same set of indices. Wall-clock time
(`new Date().toISOString()`) is a parameter `now`.
-/

namespace GenNFT

/-- ASCII lowercasing of a string, as JS `toLowerCase` acts on the ASCII
filenames involved here. -/
def jsToLower (s : String) : String :=
  String.mk (s.data.map Char.toLower)

/-- Test that `s` ends with `suffix` (JS `String.prototype.endsWith`). -/
def strEndsWith (s suffix : String) : Bool :=
  suffix.data.isSuffixOf s.data

/-- Test that `s` starts with `pre` (JS `String.prototype.startsWith`). -/
def strStartsWith (s pre : String) : Bool :=
  pre.data.isPrefixOf s.data

/-- JS `file.replace(/\.[^/.]+$/, "")`: drop a final `.ext` where `ext`
is nonempty and contains neither `.` nor `/`; otherwise leave the string
unchanged. -/
def stripExt (s : String) : String :=
  let rev := s.data.reverse
  let ext := rev.takeWhile (fun c => c ≠ '.' && c ≠ '/')
  match rev.drop ext.length with
  | '.' :: before =>
      if ext.length > 0 then String.mk before.reverse else s
  | _ => s

/-- Model of `path.join a b`. Node additionally normalizes `./`-prefixes and
separators, which never changes the file denoted, so plain
slash-joining is a faithful model of which path is meant. -/
def pathJoin (a b : String) : String := a ++ "/" ++ b

/-- Remove the first occurrence of `pat` from `l`
(JS `String.prototype.replace` with a string pattern and empty
replacement replaces only the first occurrence). -/
def replaceFirstList (pat : List Char) : List Char → List Char
  | [] => []
  | c :: rest =>
      if pat.isPrefixOf (c :: rest) then (c :: rest).drop pat.length
      else c :: replaceFirstList pat rest

/-- JS `s.replace(pat, "")` for a string pattern: first occurrence only. -/
def replaceFirst (s pat : String) : String :=
  String.mk (replaceFirstList pat.data s.data)

/-- Leading decimal digits of a character list, as a value:
`none` when the list does not start with a digit. -/
def leadingDigits : List Char → Option Nat
  | cs =>
    let ds := cs.takeWhile Char.isDigit
    if ds.isEmpty then none
    else some (ds.foldl (fun acc c => acc * 10 + (c.toNat - '0'.toNat)) 0)

/-- JS `parseInt(s, 10)`: skip leading whitespace, read an optional
sign and then leading decimal digits; `none` models `NaN`. -/
def parseIntJS (s : String) : Option Int :=
  let cs := s.data.dropWhile (fun c => c = ' ' || c = '\t' || c = '\n' || c = '\r')
  match cs with
  | '-' :: rest => (leadingDigits rest).map (fun n => -(n : Int))
  | '+' :: rest => (leadingDigits rest).map (fun n => (n : Int))
  | rest => (leadingDigits rest).map (fun n => (n : Int))

/-! ## Data model (`contract-override.ts` lines 56-110) -/

/-- Structure `LayerConfig` from `contract-override.ts`. -/
structure LayerConfig where
  name : String
  folder : String
  required : Bool
  deriving DecidableEq, Repr

/-- Structure `NFTConfig` from `contract-override.ts`. The optional S3 fields are
`Option String`; an absent field is `none`. JS truthiness of a present
but empty string is handled by `optTruthy` below. -/
structure NFTConfig where
  collectionName : String
  description : String
  width : Nat
  height : Nat
  outputDir : String
  layers : List LayerConfig
  s3Endpoint : Option String
  s3BucketName : Option String
  deriving DecidableEq, Repr

/-- Structure `LayerAttribute` from `contract-override.ts`. -/
structure LayerAttribute where
  name : String
  trait : String
  path : String
  deriving DecidableEq, Repr

/-- One entry of `NFTMetadata.attributes`. -/
structure Attribute where
  trait_type : String
  value : String
  deriving DecidableEq, Repr

/-- Structure `NFTMetadata` from `contract-override.ts`. -/
structure NFTMetadata where
  name : String
  description : String
  image : String
  attributes : List Attribute
  timestamp : String
  deriving DecidableEq, Repr

/-- JS truthiness of an optional string: absent and `""` are falsy. -/
def optTruthy : Option String → Bool
  | none => false
  | some s => !s.isEmpty

/-- Constant `DEFAULT_CONFIG` from `contract-override.ts`. -/
def DEFAULT_CONFIG : NFTConfig :=
  { collectionName := "Dog NFT Collection"
    description := "A collection of unique dog NFTs with timestamps"
    width := 1000
    height := 1000
    outputDir := "./public/output"
    layers :=
      [ { name := "Background"
          folder := "./public/assets/layers/backgrounds"
          required := true }
      , { name := "Subject"
          folder := "./public/assets/layers/subjects"
          required := true } ]
    s3Endpoint := none
    s3BucketName := none }

/-! ## Filesystem and canvas model -/

/-- A JSON value, the shape `JSON.stringify` serializes and
`JSON.parse` / `fs.readJson` recovers. Only the constructors the
program's metadata needs. -/
inductive Json where
  | str : String → Json
  | arr : List Json → Json
  | obj : List (String × Json) → Json

/-- Canvas operations performed while compositing one NFT, recorded in
draw order. -/
inductive DrawOp where
  | fillBackground : DrawOp
  | drawLayer : String → DrawOp
  | timestampText : String → DrawOp
  deriving DecidableEq, Repr

/-- Content of a file written by the program: the PNG encodes the draw
operations that produced it; a metadata file holds a JSON value. -/
inductive FileContent where
  | png : List DrawOp → FileContent
  | json : Json → FileContent

/-- The filesystem as the generator sees it: `dirListing` is
`fs.existsSync` + `fs.readdirSync` on source layer folders (`none` when
the folder does not exist), `decodeOk` says whether `loadImage`
succeeds on an asset path, and `files` are the files written so far
(newest first; a write shadows older entries at the same path). -/
structure FS where
  dirListing : String → Option (List String)
  decodeOk : String → Bool
  files : List (String × FileContent)

/-- Model of `fs.writeFileSync`: add or overwrite the file at `p`. -/
def FS.writeFile (fsys : FS) (p : String) (c : FileContent) : FS :=
  { fsys with files := (p, c) :: fsys.files }

/-- Read a previously written file. -/
def FS.readFile (fsys : FS) (p : String) : Option FileContent :=
  (fsys.files.find? (fun e => e.1 = p)).map (·.2)

/-! ## Layer resolution and random combination
(`contract-override.ts` lines 115-169) -/

/-- The PNG entries of a layer folder: empty when the folder does not
exist (`existsSync` false) and otherwise the `readdirSync` result
filtered to names whose lowercase form ends in `.png`. -/
def pngFiles (fsys : FS) (folder : String) : List String :=
  match fsys.dirListing folder with
  | none => []
  | some files => files.filter (fun f => strEndsWith (jsToLower f) ".png")

/-- Function `getImagesForLayer` from `contract-override.ts`: one
`LayerAttribute` per PNG file of the layer's folder, trait = file name
with its extension stripped, path = joined path. -/
def getImagesForLayer (fsys : FS) (layerConfig : LayerConfig) : List LayerAttribute :=
  (pngFiles fsys layerConfig.folder).map (fun file =>
    { name := layerConfig.name
      trait := stripExt file
      path := pathJoin layerConfig.folder file })

/-- The error message thrown for a required layer with no images. -/
def requiredLayerError (l : LayerConfig) : String :=
  "Layer \"" ++ l.name ++ "\" is required but has no images"

/-- Loop of `createRandomCombination`: `k` counts the `Math.random()`
calls made so far (one per layer that has images). -/
def createRandomCombinationAux (fsys : FS) (rand : Nat → Nat) :
    List LayerConfig → Nat → Except String (List LayerAttribute)
  | [], _ => .ok []
  | layer :: rest, k =>
    let images := getImagesForLayer fsys layer
    if images.isEmpty then
      if layer.required then .error (requiredLayerError layer)
      else createRandomCombinationAux fsys rand rest k
    else
      let selectedImage := images.getD (rand k % images.length) ⟨"", "", ""⟩
      match createRandomCombinationAux fsys rand rest (k + 1) with
      | .ok tail => .ok (selectedImage :: tail)
      | .error e => .error e

/-- Function `createRandomCombination` from `contract-override.ts`: walk the
configured layers in order; a required layer with no images throws, an
optional one is skipped, and otherwise one image is selected at the
random index. -/
def createRandomCombination (fsys : FS) (rand : Nat → Nat) (config : NFTConfig) :
    Except String (List LayerAttribute) :=
  createRandomCombinationAux fsys rand config.layers 0

/-! ## Metadata as JSON (`JSON.stringify` of the metadata object) -/

/-- JSON form of one attribute entry. -/
def attrToJson (a : Attribute) : Json :=
  .obj [("trait_type", .str a.trait_type), ("value", .str a.value)]

/-- JSON form of the metadata object, with the fields in the order the
source constructs them; this is the tree `JSON.stringify` serializes
and `JSON.parse` recovers. -/
def metadataToJson (m : NFTMetadata) : Json :=
  .obj
    [ ("name", .str m.name)
    , ("description", .str m.description)
    , ("image", .str m.image)
    , ("attributes", .arr (m.attributes.map attrToJson))
    , ("timestamp", .str m.timestamp) ]

/-! ## generateNFT (`contract-override.ts` lines 194-266) -/

/-- The value a successful `generateNFT` resolves with. -/
structure GenResult where
  imagePath : String
  metadataPath : String
  metadata : NFTMetadata
  deriving DecidableEq, Repr

/-- The `outputImagePath` of `generateNFT`:
`path.join(config.outputDir, 'images', tokenId + '.png')`. -/
def outputImagePath (config : NFTConfig) (tokenId : Nat) : String :=
  pathJoin (pathJoin config.outputDir "images") (toString tokenId ++ ".png")

/-- The `outputMetadataPath` of `generateNFT`:
`path.join(config.outputDir, 'metadata', tokenId + '.json')`. -/
def outputMetadataPath (config : NFTConfig) (tokenId : Nat) : String :=
  pathJoin (pathJoin config.outputDir "metadata") (toString tokenId ++ ".json")

/-- The `imageUrl` of `generateNFT`: the bare filename, replaced by the
absolute URL when both S3 fields are truthy (JS `if (config.s3Endpoint
&& config.s3BucketName)`). -/
def imageUrl (config : NFTConfig) (tokenId : Nat) : String :=
  if optTruthy config.s3Endpoint && optTruthy config.s3BucketName then
    "https://" ++ config.s3Endpoint.getD "" ++ "/" ++
      config.s3BucketName.getD "" ++ "/images/" ++ toString tokenId ++ ".png"
  else
    toString tokenId ++ ".png"

/-- The canvas operations of one generation, in draw order: the white
background fill, one `drawImage` per selected layer whose asset
`loadImage` can decode (a failing load is caught, logged and skipped),
then the timestamp text. -/
def composeOps (fsys : FS) (attrs : List LayerAttribute) (now : String) : List DrawOp :=
  DrawOp.fillBackground ::
    attrs.filterMap (fun layer =>
      if fsys.decodeOk layer.path then some (DrawOp.drawLayer layer.path) else none)
    ++ [DrawOp.timestampText now]

/-- The `metadata` object `generateNFT` builds. -/
def buildMetadata (config : NFTConfig) (tokenId : Nat)
    (attrs : List LayerAttribute) (now : String) : NFTMetadata :=
  { name := config.collectionName ++ " #" ++ toString tokenId
    description := config.description
    image := imageUrl config tokenId
    attributes := attrs.map (fun attr =>
      { trait_type := attr.name, value := attr.trait })
    timestamp := now }

/-- Function `generateNFT` from `contract-override.ts`. Returns the filesystem
after the call together with the result (`Except.error` models the
rejected promise when `createRandomCombination` throws; the throw
happens before any file write, so the filesystem is returned
unchanged on that path — `fs.ensureDirSync` only creates directories,
never files). On success the composited PNG and the metadata JSON are
written in that order and the call resolves with both paths and the
metadata object. -/
def generateNFT (fsys : FS) (rand : Nat → Nat) (now : String)
    (tokenId : Nat) (config : NFTConfig) : FS × Except String GenResult :=
  match createRandomCombination fsys rand config with
  | .error e => (fsys, .error e)
  | .ok attributes =>
    let metadata := buildMetadata config tokenId attributes now
    let fsys1 := fsys.writeFile (outputImagePath config tokenId)
      (.png (composeOps fsys attributes now))
    let fsys2 := fsys1.writeFile (outputMetadataPath config tokenId)
      (.json (metadataToJson metadata))
    (fsys2, .ok
      { imagePath := outputImagePath config tokenId
        metadataPath := outputMetadataPath config tokenId
        metadata := metadata })

/-! ## MinIO side (`minioClient.ts`, `config.ts`) -/

/-- Model of `path.basename`: the part after the last slash. -/
def pathBasename (s : String) : String :=
  String.mk ((s.data.reverse.takeWhile (fun c => c ≠ '/')).reverse)

/-- Structure `MinioConfig` from `minioClient.ts`. `port` is `Option Int`:
`none` models the JS `NaN` produced by `parseInt` of a non-numeric
environment value. -/
structure MinioConfig where
  enabled : Bool
  endPoint : String
  port : Option Int
  useSSL : Bool
  accessKey : String
  secretKey : String
  bucketName : String
  deriving DecidableEq, Repr

/-- Function `validateMinioConfig` from `config.ts`: endpoint, access key and
secret key must be nonempty and the port a positive number. -/
def validateMinioConfig (c : MinioConfig) : Bool :=
  !c.endPoint.isEmpty && !c.accessKey.isEmpty && !c.secretKey.isEmpty &&
    (match c.port with
     | none => false
     | some p => p > 0)

/-- Whether `initializeMinioClient` returns a client rather than
`null`: uploads enabled and all credentials present. -/
def minioClientAvailable (c : MinioConfig) : Bool :=
  c.enabled && !c.endPoint.isEmpty && !c.accessKey.isEmpty && !c.secretKey.isEmpty

/-- Look up a string field of a JSON object. -/
def jsonGetStrField (j : Json) (key : String) : Option String :=
  match j with
  | .obj fields =>
    match fields.find? (fun kv => kv.1 = key) with
    | some (_, Json.str s) => some s
    | _ => none
  | _ => none

/-- Overwrite the `image` field of a JSON object with a string value,
leaving every other field in place (the in-place JS mutation
`metadataContent.image = url`). -/
def jsonSetImage (url : String) : Json → Json
  | .obj fields =>
      .obj (fields.map (fun kv => if kv.1 = "image" then (kv.1, Json.str url) else kv))
  | j => j

/-- The metadata-fixup step of `uploadNFTToMinio`
(`minioClient.ts` lines 153-165): read the metadata JSON back; if its
`image` value is truthy and does not start with `http`, rewrite the
file with `image` set to the absolute MinIO URL. Any read/parse
failure is caught and leaves the filesystem unchanged. -/
def minioUpdateMetadata (endPoint bucketName imageFilename metadataPath : String)
    (fsys : FS) : FS :=
  match fsys.readFile metadataPath with
  | some (.json j) =>
    match jsonGetStrField j "image" with
    | some img =>
      if !img.isEmpty && !strStartsWith img "http" then
        fsys.writeFile metadataPath
          (.json (jsonSetImage
            ("https://" ++ endPoint ++ "/" ++ bucketName ++ "/images/" ++ imageFilename) j))
      else fsys
    | none => fsys
  | _ => fsys

/-- Function `uploadNFTToMinio` from `minioClient.ts`. Network effects are
abstracted: `connOk` is the outcome of the `listBuckets` connection
test. When the client is unavailable or the connection test fails the
function returns `false` without touching any file; otherwise it
uploads the image (upload errors are caught inside `uploadToMinio` and
do not throw), performs the metadata fixup, uploads the metadata, and
returns `true`. Only the metadata fixup touches the local
filesystem. -/
def uploadNFTToMinio (config : MinioConfig) (connOk : Bool)
    (imagePath metadataPath : String) (fsys : FS) : FS × Bool :=
  if !minioClientAvailable config then (fsys, false)
  else if !connOk then (fsys, false)
  else
    let imageFilename := pathBasename imagePath
    (minioUpdateMetadata config.endPoint config.bucketName imageFilename metadataPath fsys,
     true)

/-- The `nftNumbers` pipeline of `getLastNFTNumber`: PNG-suffixed
names have the first occurrence of `.png` removed and are parsed with
JS `parseInt`; non-numbers (`NaN`) are dropped. -/
def parsedNumbers (files : List String) : List Int :=
  (files.filter (fun f => strEndsWith f ".png")).filterMap
    (fun f => parseIntJS (replaceFirst f ".png"))

/-- Function `getLastNFTNumber` from `minioClient.ts`. The argument is the
outcome of listing `<outputDir>/images` (`Except.error` models any
filesystem failure, which the function catches and maps to 0). The
result is the maximum of `parsedNumbers`, or `0` when it is empty. -/
def getLastNFTNumber (listing : Except Unit (List String)) : Int :=
  match listing with
  | .error _ => 0
  | .ok files =>
    match parsedNumbers files with
    | [] => 0
    | n :: rest => rest.foldl max n

/-- The behaviour claim C10 ascribes to `getLastNFTNumber`, for
comparison: the largest `N` such that a file with numeric base name
`N.png` is present, and `0` when none is or on a filesystem error. -/
def getLastNFTNumberClaimed (listing : Except Unit (List String)) : Int :=
  match listing with
  | .error _ => 0
  | .ok files =>
    let nums := files.filterMap (fun f =>
      if strEndsWith f ".png" then
        let base := f.dropRight 4
        if !base.isEmpty && base.data.all Char.isDigit then
          (base.toNat?).map (fun n => (n : Int))
        else none
      else none)
    match nums with
    | [] => 0
    | n :: rest => rest.foldl max n

/-! ## Server action (`actions.ts` lines 59-253) -/

/-- Structure `GenerationResult` from `actions.ts`. -/
structure GenerationResult where
  success : Bool
  message : String
  tokenId : Option Nat
  imageUrl : Option String
  minioStatus : Option String
  errorDetails : Option String
  folderName : Option String
  minioImageUrl : Option String
  minioMetadataUrl : Option String
  fromBlockchain : Option Bool
  deriving DecidableEq, Repr

/-- The human-readable suffix chosen from the MinIO status. -/
def localMessage (minioStatus : String) : String :=
  if minioStatus = "success" then "and uploaded to MinIO"
  else if minioStatus = "failed" then "(MinIO upload failed, but saved locally)"
  else "(MinIO upload skipped, saved locally only)"

/-- The `customConfig` that `generateAndUploadNFT` passes to
`generateNFT`: the default config pointed at `<cwd>/public/output`,
with the S3 fields added exactly when the MinIO configuration
validates. -/
def customConfig (minioConfig : MinioConfig) (cwd : String) : NFTConfig :=
  { DEFAULT_CONFIG with
    outputDir := pathJoin cwd "public/output"
    s3Endpoint :=
      if validateMinioConfig minioConfig then some minioConfig.endPoint
      else DEFAULT_CONFIG.s3Endpoint
    s3BucketName :=
      if validateMinioConfig minioConfig then some minioConfig.bucketName
      else DEFAULT_CONFIG.s3BucketName }

/-- Function `generateAndUploadNFT` from `actions.ts`. External effects are
parameters: `fetchTotalSupply` is the outcome of the blockchain
total-supply query (`Except.error` covers every fetch/parse failure
path, all of which return the same failure result), `connOk` the MinIO
connection test, `cwd` is `process.cwd()`. The flow: on fetch failure
return `success := false`; otherwise generate NFT number
`totalSupply + 1` with `customConfig`; a generation throw is caught
and returns `success := false`; otherwise upload when configured,
record the status, and return `success := true` regardless of the
upload outcome. -/
def generateAndUploadNFT (minioConfig : MinioConfig)
    (fetchTotalSupply : Except String Nat) (connOk : Bool)
    (fsys : FS) (rand : Nat → Nat) (now cwd : String) : FS × GenerationResult :=
  match fetchTotalSupply with
  | .error e =>
    (fsys,
     { success := false
       message := "Failed to get token ID from blockchain"
       tokenId := none, imageUrl := none, minioStatus := none
       errorDetails := some e
       folderName := none, minioImageUrl := none, minioMetadataUrl := none
       fromBlockchain := some false })
  | .ok totalSupply =>
    let nextTokenId := totalSupply + 1
    match generateNFT fsys rand now nextTokenId (customConfig minioConfig cwd) with
    | (fsys1, .error e) =>
      -- the outer catch block; errorDetails is the stack trace, which
      -- the model does not track beyond the message
      (fsys1,
       { success := false
         message := "Error generating NFT: " ++ e
         tokenId := none, imageUrl := none, minioStatus := none
         errorDetails := some e
         folderName := none, minioImageUrl := none, minioMetadataUrl := none
         fromBlockchain := none })
    | (fsys1, .ok res) =>
      let afterUpload :=
        if validateMinioConfig minioConfig then
          let up := uploadNFTToMinio minioConfig connOk res.imagePath res.metadataPath fsys1
          if up.2 then (up.1, "success", "")
          else (up.1, "failed", "MinIO upload failed. Check server logs for details.")
        else (fsys1, "skipped", "")
      let fsys2 := afterUpload.1
      let minioStatus := afterUpload.2.1
      let errorDetails := afterUpload.2.2
      let minioImageUrl :=
        if minioStatus = "success" then
          some ("https://" ++ minioConfig.endPoint ++ "/" ++ minioConfig.bucketName ++
            "/images/" ++ toString nextTokenId ++ ".png")
        else none
      let minioMetadataUrl :=
        if minioStatus = "success" then
          some ("https://" ++ minioConfig.endPoint ++ "/" ++ minioConfig.bucketName ++
            "/metadata/" ++ toString nextTokenId ++ ".json")
        else none
      (fsys2,
       { success := true
         message := "NFT #" ++ toString nextTokenId ++ " generated " ++
           localMessage minioStatus ++ "!"
         tokenId := some nextTokenId
         imageUrl := some ("/output/images/" ++ toString nextTokenId ++ ".png")
         minioStatus := some minioStatus
         errorDetails := some errorDetails
         folderName := none
         minioImageUrl := minioImageUrl
         minioMetadataUrl := minioMetadataUrl
         fromBlockchain := some true })

/-! ## Reading metadata back (`JSON.parse` view used for the
round-trip property) -/

/-- Parse one attribute entry back out of its JSON form. -/
def jsonToAttr (j : Json) : Option Attribute :=
  match jsonGetStrField j "trait_type", jsonGetStrField j "value" with
  | some t, some v => some { trait_type := t, value := v }
  | _, _ => none

/-- Apply a partial parse to every element, failing if any element
fails. -/
def mapOption {α β : Type} (f : α → Option β) : List α → Option (List β)
  | [] => some []
  | a :: l =>
    match f a, mapOption f l with
    | some b, some bs => some (b :: bs)
    | _, _ => none

/-- Extract the `name`, `attributes` and `timestamp` fields of a parsed
metadata JSON value. -/
def readBackFields (j : Json) : Option (String × List Attribute × String) :=
  match jsonGetStrField j "name", jsonGetStrField j "timestamp" with
  | some n, some ts =>
    match j with
    | .obj fields =>
      match fields.find? (fun kv => kv.1 = "attributes") with
      | some (_, Json.arr l) => (mapOption jsonToAttr l).map (fun as => (n, as, ts))
      | _ => none
    | _ => none
  | _, _ => none

/-! ## Concrete fixtures used by the witness theorems -/

/-- A filesystem with two populated layer folders; the asset
`subj/cat.png` fails to decode. -/
def wFS : FS :=
  { dirListing := fun s =>
      if s = "bg" then some ["blue.png"]
      else if s = "subj" then some ["dog.png", "cat.png"]
      else none
    decodeOk := fun p => p != "subj/cat.png"
    files := [] }

/-- A two-layer configuration over `wFS`, local-only mode. -/
def wConfig : NFTConfig :=
  { collectionName := "Dog NFT Collection"
    description := "A collection of unique dog NFTs with timestamps"
    width := 1000
    height := 1000
    outputDir := "out"
    layers :=
      [ { name := "Background", folder := "bg", required := true }
      , { name := "Subject", folder := "subj", required := true } ]
    s3Endpoint := none
    s3BucketName := none }

/-- A filesystem on which every layer folder is absent. -/
def wBadFS : FS :=
  { dirListing := fun _ => none
    decodeOk := fun _ => true
    files := [] }

/-- The constant-zero random stream. -/
def wRandZero : Nat → Nat := fun _ => 0

/-- The result generating token 7 over `wFS` with `wConfig`, the
zero random stream and timestamp `"TS"` is expected to produce. -/
def wRes : GenResult :=
  { imagePath := "out/images/7.png"
    metadataPath := "out/metadata/7.json"
    metadata :=
      { name := "Dog NFT Collection #7"
        description := "A collection of unique dog NFTs with timestamps"
        image := "7.png"
        attributes :=
          [ { trait_type := "Background", value := "blue" }
          , { trait_type := "Subject", value := "dog" } ]
        timestamp := "TS" } }

/-- The constant-one random stream (selects `cat.png`, the corrupt
asset, for the Subject layer of `wFS`). -/
def wRandOne : Nat → Nat := fun _ => 1

/-- The combination the zero random stream selects over `wFS`. -/
def wAttrs : List LayerAttribute :=
  [ { name := "Background", trait := "blue", path := "bg/blue.png" }
  , { name := "Subject", trait := "dog", path := "subj/dog.png" } ]

/-- The combination the constant-one random stream selects over `wFS`:
the Subject layer resolves to the undecodable `subj/cat.png`. -/
def wAttrsOne : List LayerAttribute :=
  [ { name := "Background", trait := "blue", path := "bg/blue.png" }
  , { name := "Subject", trait := "cat", path := "subj/cat.png" } ]

/-- Fixture equal to `wConfig` but with both S3 fields configured. -/
def wConfigS3 : NFTConfig :=
  { wConfig with
    s3Endpoint := some "minio.example.com"
    s3BucketName := some "nft" }

/-- A filesystem populated at the default config's layer folders, for
exercising the server action. -/
def wActionFS : FS :=
  { dirListing := fun s =>
      if s = "./public/assets/layers/backgrounds" then some ["blue.png"]
      else if s = "./public/assets/layers/subjects" then some ["dog.png"]
      else none
    decodeOk := fun _ => true
    files := [] }

/-- The combination the zero random stream selects over `wActionFS`
with the default layer folders. -/
def wActionAttrs : List LayerAttribute :=
  [ { name := "Background", trait := "blue"
      path := "./public/assets/layers/backgrounds/blue.png" }
  , { name := "Subject", trait := "dog"
      path := "./public/assets/layers/subjects/dog.png" } ]

/-- The image field stored in the metadata file at `p`, when the file
exists and holds JSON. -/
def imageFieldOf (fsys : FS) (p : String) : Option String :=
  match fsys.readFile p with
  | some (.json j) => jsonGetStrField j "image"
  | _ => none

/-- The result expected from generating token 7 over `wFS` with
`wConfigS3` (S3 mode): same as `wRes` but with the absolute URL. -/
def wResS3 : GenResult :=
  { imagePath := "out/images/7.png"
    metadataPath := "out/metadata/7.json"
    metadata :=
      { name := "Dog NFT Collection #7"
        description := "A collection of unique dog NFTs with timestamps"
        image := "https://minio.example.com/nft/images/7.png"
        attributes :=
          [ { trait_type := "Background", value := "blue" }
          , { trait_type := "Subject", value := "dog" } ]
        timestamp := "TS" } }

/-- A valid MinIO configuration fixture. -/
def wMinio : MinioConfig :=
  { enabled := true
    endPoint := "minio.example.com"
    port := some 443
    useSSL := true
    accessKey := "ak"
    secretKey := "sk"
    bucketName := "nft" }

/-! # Theorems -/

/-- Each attribute produced for a layer carries that layer's name. -/
theorem mem_getImagesForLayer_name {fsys : FS} {lc : LayerConfig} {a : LayerAttribute}
    (h : a ∈ getImagesForLayer fsys lc) : a.name = lc.name := by
  simp only [getImagesForLayer, List.mem_map] at h
  obtain ⟨f, _, rfl⟩ := h
  rfl

/-- The element selected at a modular random index belongs to the list. -/
theorem getD_mod_mem {α : Type} (l : List α) (d : α) (i : Nat)
    (h : l.isEmpty = false) : l.getD (i % l.length) d ∈ l := by
  have hne : l ≠ [] := by cases l <;> simp_all
  have hlen : 0 < l.length := List.length_pos.mpr hne
  have hi : i % l.length < l.length := Nat.mod_lt _ hlen
  rw [List.getD_eq_getElem?_getD, List.getElem?_eq_getElem hi]
  exact List.getElem_mem hi

/-- If some layer satisfies "required and no images", the combination
loop throws the error of the first such layer, for every random stream
and counter. -/
theorem crcAux_error_of_find {fsys : FS} {rand : Nat → Nat} :
    ∀ (layers : List LayerConfig) (k : Nat) (l : LayerConfig),
    layers.find? (fun lc => lc.required && (getImagesForLayer fsys lc).isEmpty) = some l →
    createRandomCombinationAux fsys rand layers k = .error (requiredLayerError l) := by
  intro layers
  induction layers with
  | nil => intro k l h; simp [List.find?] at h
  | cons head tail ih =>
    intro k l h
    cases hemp : (getImagesForLayer fsys head).isEmpty with
    | false =>
      have h' : tail.find?
          (fun lc => lc.required && (getImagesForLayer fsys lc).isEmpty) = some l := by
        simpa [List.find?, hemp] using h
      simp [createRandomCombinationAux, hemp, ih (k + 1) l h']
    | true =>
      cases hreq : head.required with
      | true =>
        have hl : head = l := by
          have hfind : List.find?
              (fun lc => lc.required && (getImagesForLayer fsys lc).isEmpty)
              (head :: tail) = some head := by
            simp [List.find?, hreq, hemp]
          rw [hfind] at h
          exact Option.some.inj h
        subst hl
        simp [createRandomCombinationAux, hemp, hreq]
      | false =>
        have h' : tail.find?
            (fun lc => lc.required && (getImagesForLayer fsys lc).isEmpty) = some l := by
          simpa [List.find?, hreq] using h
        simp [createRandomCombinationAux, hemp, hreq, ih k l h']

/-- C1: if any required layer has an absent source directory or one
with no PNG files, `generateNFT` fails with the error naming (the
first) such layer, returning the filesystem unchanged — in particular
neither `<outputDir>/images/<tokenId>.png` nor
`<outputDir>/metadata/<tokenId>.json` is written by the call. -/
theorem generateNFT_requiredMissing_aborts
    (fsys : FS) (rand : Nat → Nat) (now : String) (tokenId : Nat) (config : NFTConfig)
    (l : LayerConfig) (hl : l ∈ config.layers) (hreq : l.required = true)
    (hempty : getImagesForLayer fsys l = []) :
    ∃ lbad, lbad ∈ config.layers ∧ lbad.required = true ∧
      getImagesForLayer fsys lbad = [] ∧
      generateNFT fsys rand now tokenId config =
        (fsys, Except.error (requiredLayerError lbad)) := by
  have hsome : (config.layers.find?
      (fun lc => lc.required && (getImagesForLayer fsys lc).isEmpty)).isSome := by
    rw [List.find?_isSome]
    exact ⟨l, hl, by simp [hreq, hempty]⟩
  obtain ⟨lbad, hfind⟩ := Option.isSome_iff_exists.mp hsome
  have hmem : lbad ∈ config.layers := List.mem_of_find?_eq_some hfind
  have hpred := List.find?_some hfind
  have hsplit : lbad.required = true ∧ (getImagesForLayer fsys lbad).isEmpty = true := by
    simpa using hpred
  obtain ⟨hbreq, hbemp⟩ := hsplit
  refine ⟨lbad, hmem, hbreq, List.isEmpty_iff.mp hbemp, ?_⟩
  have herr : createRandomCombinationAux fsys rand config.layers 0 =
      .error (requiredLayerError lbad) :=
    crcAux_error_of_find config.layers 0 lbad hfind
  simp [generateNFT, createRandomCombination, herr]

/-- C1 witness: over `wBadFS` every folder is absent, so generation of
token 1 with `wConfig` aborts with an error naming a required layer and
leaves the filesystem untouched. -/
theorem generateNFT_requiredMissing_aborts_witness :
    ({ name := "Background", folder := "bg", required := true } : LayerConfig) ∈
        wConfig.layers ∧
    ∃ lbad, lbad ∈ wConfig.layers ∧ lbad.required = true ∧
      getImagesForLayer wBadFS lbad = [] ∧
      generateNFT wBadFS wRandZero "TS" 1 wConfig =
        (wBadFS, Except.error (requiredLayerError lbad)) :=
  ⟨by decide,
   generateNFT_requiredMissing_aborts wBadFS wRandZero "TS" 1 wConfig
     { name := "Background", folder := "bg", required := true }
     (by decide) rfl rfl⟩

/-- Reading a path right after writing it yields the written content. -/
theorem readFile_writeFile_same (fsys : FS) (p : String) (c : FileContent) :
    (fsys.writeFile p c).readFile p = some c := by
  simp [FS.readFile, FS.writeFile, List.find?]

/-- Writing one path leaves reads of every other path unchanged. -/
theorem readFile_writeFile_other (fsys : FS) (p q : String) (c : FileContent)
    (h : q ≠ p) : (fsys.writeFile p c).readFile q = fsys.readFile q := by
  simp [FS.readFile, FS.writeFile, List.find?, Ne.symm h]

/-- The two output paths of one generation call differ (their lengths
differ). -/
theorem outputPaths_ne (config : NFTConfig) (tokenId : Nat) :
    outputMetadataPath config tokenId ≠ outputImagePath config tokenId := by
  intro h
  have hlen := congrArg String.length h
  simp only [outputMetadataPath, outputImagePath, pathJoin, String.length_append] at hlen
  have h1 : "/".length = 1 := rfl
  have h2 : "images".length = 6 := rfl
  have h3 : "metadata".length = 8 := rfl
  have h4 : ".png".length = 4 := rfl
  have h5 : ".json".length = 5 := rfl
  rw [h1, h2, h3, h4, h5] at hlen
  omega

/-- Shape of a successful `generateNFT` call: both files written, and
the result carries the two paths and the built metadata. -/
theorem generateNFT_ok_eq
    (fsys : FS) (rand : Nat → Nat) (now : String) (tokenId : Nat) (config : NFTConfig)
    (attrs : List LayerAttribute)
    (hc : createRandomCombination fsys rand config = .ok attrs) :
    generateNFT fsys rand now tokenId config =
      ((fsys.writeFile (outputImagePath config tokenId)
          (.png (composeOps fsys attrs now))).writeFile
        (outputMetadataPath config tokenId)
        (.json (metadataToJson (buildMetadata config tokenId attrs now))),
       .ok
        { imagePath := outputImagePath config tokenId
          metadataPath := outputMetadataPath config tokenId
          metadata := buildMetadata config tokenId attrs now }) := by
  simp [generateNFT, hc]

/-- On success, the combination loop produces exactly one attribute per
layer with images, in layer order, each named after its layer. -/
theorem crcAux_ok_names {fsys : FS} {rand : Nat → Nat} :
    ∀ (layers : List LayerConfig) (k : Nat) (attrs : List LayerAttribute),
    createRandomCombinationAux fsys rand layers k = .ok attrs →
    attrs.map (·.name) =
      (layers.filter (fun l => !(getImagesForLayer fsys l).isEmpty)).map (·.name) := by
  intro layers
  induction layers with
  | nil =>
    intro k attrs h
    simp only [createRandomCombinationAux] at h
    cases h
    simp
  | cons head tail ih =>
    intro k attrs h
    cases hemp : (getImagesForLayer fsys head).isEmpty with
    | true =>
      cases hreq : head.required with
      | true => simp [createRandomCombinationAux, hemp, hreq] at h
      | false =>
        have h' : createRandomCombinationAux fsys rand tail k = .ok attrs := by
          simpa [createRandomCombinationAux, hemp, hreq] using h
        simpa [List.filter, hemp] using ih k attrs h'
    | false =>
      rw [List.filter_cons]
      simp only [hemp, Bool.not_false, if_pos]
      simp only [createRandomCombinationAux, hemp, Bool.false_eq_true, if_false] at h
      cases hrec : createRandomCombinationAux fsys rand tail (k + 1) with
      | error e => rw [hrec] at h; cases h
      | ok tailAttrs =>
        rw [hrec] at h
        cases h
        have hsel : ((getImagesForLayer fsys head).getD
            (rand k % (getImagesForLayer fsys head).length)
            { name := "", trait := "", path := "" }).name = head.name :=
          mem_getImagesForLayer_name (getD_mod_mem _ _ _ hemp)
        rw [List.getD_eq_getElem?_getD] at hsel
        simp [hsel, ih (k + 1) tailAttrs hrec]

/-- C2: on every successful generation, the metadata's attribute list
has exactly one entry per layer whose folder holds at least one PNG,
none for a layer with an empty or absent folder, and the entries'
trait types follow the configured layer order — so its length is the
number of contributing layers. -/
theorem generateNFT_attribute_names
    (fsys : FS) (rand : Nat → Nat) (now : String) (tokenId : Nat) (config : NFTConfig)
    (fs' : FS) (res : GenResult)
    (h : generateNFT fsys rand now tokenId config = (fs', .ok res)) :
    res.metadata.attributes.map (·.trait_type) =
      (config.layers.filter (fun l => !(getImagesForLayer fsys l).isEmpty)).map (·.name) := by
  unfold generateNFT at h
  cases hc : createRandomCombination fsys rand config with
  | error e => rw [hc] at h; cases h
  | ok attrs =>
    rw [hc] at h
    have hres : res.metadata.attributes = attrs.map (fun attr =>
        { trait_type := attr.name, value := attr.trait }) := by
      have := congrArg Prod.snd h
      simp only at this
      cases this
      rfl
    rw [hres, List.map_map]
    exact crcAux_ok_names config.layers 0 attrs hc

/-- C2 witness: generating token 7 over `wFS` succeeds and its
attribute trait types are exactly the two contributing layer names in
order. -/
theorem generateNFT_attribute_names_witness :
    (generateNFT wFS wRandZero "TS" 7 wConfig).2 = Except.ok wRes ∧
    wRes.metadata.attributes.map (·.trait_type) =
      (wConfig.layers.filter
        (fun l => !(getImagesForLayer wFS l).isEmpty)).map (·.name) ∧
    (wConfig.layers.filter
        (fun l => !(getImagesForLayer wFS l).isEmpty)).map (·.name) =
      ["Background", "Subject"] := by
  have h2 : (generateNFT wFS wRandZero "TS" 7 wConfig).2 = Except.ok wRes := by rfl
  refine ⟨h2, ?_, by decide⟩
  exact generateNFT_attribute_names wFS wRandZero "TS" 7 wConfig
    (generateNFT wFS wRandZero "TS" 7 wConfig).1 wRes (by rw [← h2])

/-- C6: every successful `generateNFT` call writes the PNG to
`<outputDir>/images/<tokenId>.png`, the metadata JSON to
`<outputDir>/metadata/<tokenId>.json`, and returns a value carrying
both paths together with the metadata object (whose serialization is
exactly what the metadata file holds). -/
theorem generateNFT_success_outputs
    (fsys : FS) (rand : Nat → Nat) (now : String) (tokenId : Nat) (config : NFTConfig)
    (attrs : List LayerAttribute)
    (hc : createRandomCombination fsys rand config = .ok attrs) :
    ∃ fs' res, generateNFT fsys rand now tokenId config = (fs', Except.ok res) ∧
      res.imagePath = config.outputDir ++ "/images/" ++ (toString tokenId ++ ".png") ∧
      res.metadataPath = config.outputDir ++ "/metadata/" ++ (toString tokenId ++ ".json") ∧
      (∃ ops, fs'.readFile res.imagePath = some (.png ops)) ∧
      fs'.readFile res.metadataPath = some (.json (metadataToJson res.metadata)) := by
  refine ⟨_, _, generateNFT_ok_eq fsys rand now tokenId config attrs hc, ?_, ?_, ?_, ?_⟩
  · simp [outputImagePath, pathJoin, String.append_assoc]
  · simp [outputMetadataPath, pathJoin, String.append_assoc]
  · refine ⟨composeOps fsys attrs now, ?_⟩
    show ((fsys.writeFile _ _).writeFile _ _).readFile (outputImagePath config tokenId) = _
    rw [readFile_writeFile_other _ _ _ _ (Ne.symm (outputPaths_ne config tokenId))]
    exact readFile_writeFile_same _ _ _
  · exact readFile_writeFile_same _ _ _

/-- C6 witness: token 7 over `wFS` with `wConfig` — the combination
succeeds and the conclusion holds at that input. -/
theorem generateNFT_success_outputs_witness :
    createRandomCombination wFS wRandZero wConfig = .ok wAttrs ∧
    ∃ fs' res, generateNFT wFS wRandZero "TS" 7 wConfig = (fs', Except.ok res) ∧
      res.imagePath = wConfig.outputDir ++ "/images/" ++ (toString 7 ++ ".png") ∧
      res.metadataPath = wConfig.outputDir ++ "/metadata/" ++ (toString 7 ++ ".json") ∧
      (∃ ops, fs'.readFile res.imagePath = some (.png ops)) ∧
      fs'.readFile res.metadataPath = some (.json (metadataToJson res.metadata)) :=
  ⟨rfl, generateNFT_success_outputs wFS wRandZero "TS" 7 wConfig wAttrs rfl⟩

/-- C5: once the combination is selected, generation always completes
and writes both files, whatever assets fail to decode; the recorded
canvas operations draw exactly the decodable layers — an undecodable
asset's layer is skipped while every decodable layer is still drawn,
so a single corrupt asset never aborts the generation. -/
theorem generateNFT_decodeFailure_skips
    (fsys : FS) (rand : Nat → Nat) (now : String) (tokenId : Nat) (config : NFTConfig)
    (attrs : List LayerAttribute)
    (hc : createRandomCombination fsys rand config = .ok attrs) :
    ∃ fs' res, generateNFT fsys rand now tokenId config = (fs', Except.ok res) ∧
      fs'.readFile res.imagePath = some (.png (composeOps fsys attrs now)) ∧
      (fs'.readFile res.metadataPath).isSome ∧
      (∀ a ∈ attrs, fsys.decodeOk a.path = false →
        DrawOp.drawLayer a.path ∉ composeOps fsys attrs now) ∧
      (∀ a ∈ attrs, fsys.decodeOk a.path = true →
        DrawOp.drawLayer a.path ∈ composeOps fsys attrs now) := by
  refine ⟨_, _, generateNFT_ok_eq fsys rand now tokenId config attrs hc, ?_, ?_, ?_, ?_⟩
  · show ((fsys.writeFile _ _).writeFile _ _).readFile (outputImagePath config tokenId) = _
    rw [readFile_writeFile_other _ _ _ _ (Ne.symm (outputPaths_ne config tokenId))]
    exact readFile_writeFile_same _ _ _
  · show (((fsys.writeFile _ _).writeFile _ _).readFile
      (outputMetadataPath config tokenId)).isSome
    rw [readFile_writeFile_same]
    rfl
  · intro a ha hfail hmem
    simp only [composeOps, List.mem_cons, List.mem_append, List.mem_filterMap,
      List.mem_singleton] at hmem
    rcases hmem with (h | ⟨b, hbmem, hb⟩) | (h | h)
    · exact DrawOp.noConfusion h
    · by_cases hdec : fsys.decodeOk b.path = true
      · rw [if_pos hdec] at hb
        have hpath : b.path = a.path := DrawOp.drawLayer.inj (Option.some.inj hb)
        rw [hpath] at hdec
        rw [hdec] at hfail
        cases hfail
      · rw [if_neg hdec] at hb
        cases hb
    · exact DrawOp.noConfusion h
    · cases h
  · intro a ha hok
    simp only [composeOps, List.mem_cons, List.mem_append, List.mem_filterMap]
    refine Or.inl (Or.inr ⟨a, ha, ?_⟩)
    rw [if_pos hok]

/-- C5 witness: the constant-one stream selects the corrupt
`subj/cat.png` over `wFS`; generation still succeeds, both files are
written, the cat layer's draw is skipped and the background is still
drawn. -/
theorem generateNFT_decodeFailure_skips_witness :
    createRandomCombination wFS wRandOne wConfig = .ok wAttrsOne ∧
    (∃ fs' res, generateNFT wFS wRandOne "TS" 7 wConfig = (fs', Except.ok res) ∧
      fs'.readFile res.imagePath = some (.png (composeOps wFS wAttrsOne "TS")) ∧
      (fs'.readFile res.metadataPath).isSome ∧
      (∀ a ∈ wAttrsOne, wFS.decodeOk a.path = false →
        DrawOp.drawLayer a.path ∉ composeOps wFS wAttrsOne "TS") ∧
      (∀ a ∈ wAttrsOne, wFS.decodeOk a.path = true →
        DrawOp.drawLayer a.path ∈ composeOps wFS wAttrsOne "TS")) ∧
    wFS.decodeOk "subj/cat.png" = false ∧
    composeOps wFS wAttrsOne "TS" =
      [DrawOp.fillBackground, DrawOp.drawLayer "bg/blue.png",
       DrawOp.timestampText "TS"] :=
  ⟨rfl,
   generateNFT_decodeFailure_skips wFS wRandOne "TS" 7 wConfig wAttrsOne rfl,
   rfl, rfl⟩

/-- C4: the image field of the produced metadata takes exactly one of
two forms — the bare filename `<tokenId>.png` when endpoint and bucket
are not both configured (present and nonempty), or the absolute URL
`https://<s3Endpoint>/<s3BucketName>/images/<tokenId>.png` when both
are — and never any other form. -/
theorem generateNFT_image_form
    (fsys : FS) (rand : Nat → Nat) (now : String) (tokenId : Nat) (config : NFTConfig)
    (fs' : FS) (res : GenResult)
    (h : generateNFT fsys rand now tokenId config = (fs', .ok res)) :
    ((optTruthy config.s3Endpoint && optTruthy config.s3BucketName) = true ∧
      ∃ ep bu, config.s3Endpoint = some ep ∧ config.s3BucketName = some bu ∧
        res.metadata.image =
          "https://" ++ ep ++ "/" ++ bu ++ "/images/" ++ toString tokenId ++ ".png") ∨
    ((optTruthy config.s3Endpoint && optTruthy config.s3BucketName) = false ∧
      res.metadata.image = toString tokenId ++ ".png") := by
  have himg : res.metadata.image = imageUrl config tokenId := by
    unfold generateNFT at h
    cases hc : createRandomCombination fsys rand config with
    | error e => rw [hc] at h; cases h
    | ok attrs =>
      rw [hc] at h
      have hsnd := congrArg Prod.snd h
      simp only at hsnd
      cases hsnd
      rfl
  cases hcond : (optTruthy config.s3Endpoint && optTruthy config.s3BucketName) with
  | true =>
    left
    refine ⟨rfl, ?_⟩
    have h1 : optTruthy config.s3Endpoint = true := by
      cases hx : optTruthy config.s3Endpoint
      · rw [hx, Bool.false_and] at hcond; cases hcond
      · rfl
    have h2 : optTruthy config.s3BucketName = true := by
      cases hx : optTruthy config.s3BucketName
      · rw [hx, Bool.and_false] at hcond; cases hcond
      · rfl
    cases hep : config.s3Endpoint with
    | none => rw [hep] at h1; cases h1
    | some ep =>
      cases hbu : config.s3BucketName with
      | none => rw [hbu] at h2; cases h2
      | some bu =>
        refine ⟨ep, bu, rfl, rfl, ?_⟩
        rw [himg]
        rw [hep] at h1
        rw [hbu] at h2
        simp [imageUrl, hep, hbu, h1, h2]
  | false =>
    right
    refine ⟨rfl, ?_⟩
    rw [himg]
    simp [imageUrl, hcond]

/-- C4 witness: the same generation in local mode yields the bare
filename and with both S3 fields set yields the absolute URL. -/
theorem generateNFT_image_form_witness :
    ((generateNFT wFS wRandZero "TS" 7 wConfig).2 = Except.ok wRes ∧
      (((optTruthy wConfig.s3Endpoint && optTruthy wConfig.s3BucketName) = true ∧
        ∃ ep bu, wConfig.s3Endpoint = some ep ∧ wConfig.s3BucketName = some bu ∧
          wRes.metadata.image =
            "https://" ++ ep ++ "/" ++ bu ++ "/images/" ++ toString 7 ++ ".png") ∨
       ((optTruthy wConfig.s3Endpoint && optTruthy wConfig.s3BucketName) = false ∧
        wRes.metadata.image = toString 7 ++ ".png"))) ∧
    wRes.metadata.image = "7.png" := by
  have h2 : (generateNFT wFS wRandZero "TS" 7 wConfig).2 = Except.ok wRes := by rfl
  refine ⟨⟨h2, ?_⟩, rfl⟩
  exact generateNFT_image_form wFS wRandZero "TS" 7 wConfig
    (generateNFT wFS wRandZero "TS" 7 wConfig).1 wRes (by rw [← h2])

/-- Parsing back the JSON of an attribute list recovers it. -/
theorem mapOption_jsonToAttr (l : List Attribute) :
    mapOption jsonToAttr (l.map attrToJson) = some l := by
  induction l with
  | nil => rfl
  | cons a t ih =>
    have hhead : jsonToAttr (attrToJson a) = some a := rfl
    simp [mapOption, hhead, ih]

/-- Reading the serialized metadata back recovers the `name`,
`attributes` and `timestamp` fields. -/
theorem readBackFields_metadataToJson (m : NFTMetadata) :
    readBackFields (metadataToJson m) = some (m.name, m.attributes, m.timestamp) := by
  simp [readBackFields, metadataToJson, jsonGetStrField, List.find?,
    mapOption_jsonToAttr]

/-- C7: for every successful generation, parsing the metadata file
written by `generateNFT` yields the same `name`, `attributes` and
`timestamp` as the returned in-memory metadata object. -/
theorem generateNFT_metadata_roundTrip
    (fsys : FS) (rand : Nat → Nat) (now : String) (tokenId : Nat) (config : NFTConfig)
    (fs' : FS) (res : GenResult)
    (h : generateNFT fsys rand now tokenId config = (fs', .ok res)) :
    ∃ j, fs'.readFile res.metadataPath = some (.json j) ∧
      readBackFields j =
        some (res.metadata.name, res.metadata.attributes, res.metadata.timestamp) := by
  unfold generateNFT at h
  cases hc : createRandomCombination fsys rand config with
  | error e => rw [hc] at h; cases h
  | ok attrs =>
    rw [hc] at h
    have hfst := congrArg Prod.fst h
    have hsnd := congrArg Prod.snd h
    simp only at hfst hsnd
    cases hsnd
    cases hfst
    exact ⟨metadataToJson (buildMetadata config tokenId attrs now),
      readFile_writeFile_same _ _ _,
      readBackFields_metadataToJson _⟩

/-- C7 witness: the round trip at the concrete token-7 generation. -/
theorem generateNFT_metadata_roundTrip_witness :
    (generateNFT wFS wRandZero "TS" 7 wConfig).2 = Except.ok wRes ∧
    ∃ j, ((generateNFT wFS wRandZero "TS" 7 wConfig).1).readFile wRes.metadataPath =
        some (.json j) ∧
      readBackFields j =
        some (wRes.metadata.name, wRes.metadata.attributes, wRes.metadata.timestamp) := by
  have h2 : (generateNFT wFS wRandZero "TS" 7 wConfig).2 = Except.ok wRes := by rfl
  exact ⟨h2, generateNFT_metadata_roundTrip wFS wRandZero "TS" 7 wConfig
    (generateNFT wFS wRandZero "TS" 7 wConfig).1 wRes (by rw [← h2])⟩

/-- C8: a layer whose folder holds exactly one PNG file always
resolves to that file's base name — on every successful call of the
combination selector, whatever the random stream, the combination
contains that layer's unique attribute. -/
theorem singleImage_layer_constant
    (fsys : FS) (config : NFTConfig) (l : LayerConfig) (f : String)
    (hl : l ∈ config.layers) (hf : pngFiles fsys l.folder = [f]) :
    ∀ (rand : Nat → Nat) (attrs : List LayerAttribute),
      createRandomCombination fsys rand config = .ok attrs →
      ({ name := l.name, trait := stripExt f, path := pathJoin l.folder f }
        : LayerAttribute) ∈ attrs := by
  intro rand
  have himg : getImagesForLayer fsys l =
      [{ name := l.name, trait := stripExt f, path := pathJoin l.folder f }] := by
    rw [getImagesForLayer, hf]
    rfl
  have key : ∀ (layers : List LayerConfig), l ∈ layers →
      ∀ (k : Nat) (attrs : List LayerAttribute),
      createRandomCombinationAux fsys rand layers k = .ok attrs →
      ({ name := l.name, trait := stripExt f, path := pathJoin l.folder f }
        : LayerAttribute) ∈ attrs := by
    intro layers
    induction layers with
    | nil => intro hmem; cases hmem
    | cons head tail ih =>
      intro hmem k attrs h
      rcases List.mem_cons.mp hmem with heq | htail
      · subst heq
        simp only [createRandomCombinationAux, himg, List.isEmpty_cons,
          Bool.false_eq_true, if_false] at h
        cases hrec : createRandomCombinationAux fsys rand tail (k + 1) with
        | error e => rw [hrec] at h; cases h
        | ok tailAttrs =>
          rw [hrec] at h
          cases h
          simp [Nat.mod_one]
      · cases hemp : (getImagesForLayer fsys head).isEmpty with
        | true =>
          cases hreq : head.required with
          | true => simp [createRandomCombinationAux, hemp, hreq] at h
          | false =>
            have h' : createRandomCombinationAux fsys rand tail k = .ok attrs := by
              simpa [createRandomCombinationAux, hemp, hreq] using h
            exact ih htail k attrs h'
        | false =>
          simp only [createRandomCombinationAux, hemp, Bool.false_eq_true,
            if_false] at h
          cases hrec : createRandomCombinationAux fsys rand tail (k + 1) with
          | error e => rw [hrec] at h; cases h
          | ok tailAttrs =>
            rw [hrec] at h
            cases h
            exact List.mem_cons_of_mem _ (ih htail (k + 1) tailAttrs hrec)
  intro attrs h
  exact key config.layers hl 0 attrs h

/-- C8 witness: the Background folder of `wFS` holds only `blue.png`,
and both the zero and the one random streams resolve it to trait
`blue`. -/
theorem singleImage_layer_constant_witness :
    ({ name := "Background", folder := "bg", required := true } : LayerConfig) ∈
        wConfig.layers ∧
    pngFiles wFS "bg" = ["blue.png"] ∧
    createRandomCombination wFS wRandZero wConfig = .ok wAttrs ∧
    createRandomCombination wFS wRandOne wConfig = .ok wAttrsOne ∧
    ({ name := "Background", trait := stripExt "blue.png",
       path := pathJoin "bg" "blue.png" } : LayerAttribute) ∈ wAttrs ∧
    ({ name := "Background", trait := stripExt "blue.png",
       path := pathJoin "bg" "blue.png" } : LayerAttribute) ∈ wAttrsOne :=
  ⟨by decide, rfl, rfl, rfl,
   singleImage_layer_constant wFS wConfig
     { name := "Background", folder := "bg", required := true } "blue.png"
     (by decide) rfl wRandZero wAttrs rfl,
   singleImage_layer_constant wFS wConfig
     { name := "Background", folder := "bg", required := true } "blue.png"
     (by decide) rfl wRandOne wAttrsOne rfl⟩

/-- C9: when the total-supply fetch and the image generation itself
succeed, `generateAndUploadNFT` returns `success := true` whatever the
MinIO outcome; a skipped upload is reported as `minioStatus = some
"skipped"`, and a failed one as `minioStatus = some "failed"` with
`errorDetails` set — never by `success := false`. -/
theorem generateAndUploadNFT_success_despite_upload
    (mc : MinioConfig) (n : Nat) (connOk : Bool) (fsys : FS) (rand : Nat → Nat)
    (now cwd : String) (attrs : List LayerAttribute)
    (hc : createRandomCombination fsys rand (customConfig mc cwd) = .ok attrs) :
    ((generateAndUploadNFT mc (.ok n) connOk fsys rand now cwd).2).success = true ∧
    (validateMinioConfig mc = false →
      ((generateAndUploadNFT mc (.ok n) connOk fsys rand now cwd).2).minioStatus =
        some "skipped") ∧
    (validateMinioConfig mc = true → (minioClientAvailable mc && connOk) = false →
      ((generateAndUploadNFT mc (.ok n) connOk fsys rand now cwd).2).minioStatus =
        some "failed" ∧
      ((generateAndUploadNFT mc (.ok n) connOk fsys rand now cwd).2).errorDetails =
        some "MinIO upload failed. Check server logs for details.") := by
  have hok := generateNFT_ok_eq fsys rand now (n + 1) (customConfig mc cwd) attrs hc
  refine ⟨?_, ?_, ?_⟩
  · simp only [generateAndUploadNFT, hok]
  · intro hval
    simp only [generateAndUploadNFT, hok, hval, Bool.false_eq_true, if_false]
  · intro hval hup
    have hupload : ∀ ip mp f, uploadNFTToMinio mc connOk ip mp f = (f, false) := by
      intro ip mp f
      unfold uploadNFTToMinio
      cases hav : minioClientAvailable mc with
      | false => simp
      | true =>
        have hconn : connOk = false := by
          rw [hav, Bool.true_and] at hup
          exact hup
        simp [hconn]
    simp only [generateAndUploadNFT, hok, hval, if_true, hupload, Bool.false_eq_true,
      if_false]
    exact ⟨trivial, trivial⟩

/-- C9 witness: over `wActionFS` with the valid `wMinio` configuration
but a failing connection test, generation succeeds, the action reports
`success := true`, and the upload failure appears only in
`minioStatus`/`errorDetails`. -/
theorem generateAndUploadNFT_success_despite_upload_witness :
    createRandomCombination wActionFS wRandZero (customConfig wMinio "cw") =
      .ok wActionAttrs ∧
    validateMinioConfig wMinio = true ∧
    (minioClientAvailable wMinio && false) = false ∧
    ((generateAndUploadNFT wMinio (.ok 3) false wActionFS wRandZero "TS" "cw").2).success
      = true ∧
    ((generateAndUploadNFT wMinio (.ok 3) false wActionFS wRandZero "TS" "cw").2).minioStatus
      = some "failed" ∧
    ((generateAndUploadNFT wMinio (.ok 3) false wActionFS wRandZero "TS" "cw").2).errorDetails
      = some "MinIO upload failed. Check server logs for details." := by
  have h := generateAndUploadNFT_success_despite_upload wMinio 3 false wActionFS
    wRandZero "TS" "cw" wActionAttrs rfl
  exact ⟨rfl, rfl, rfl, h.1, (h.2.2 rfl rfl).1, (h.2.2 rfl rfl).2⟩

/-- C10 counterexample: for the listing `["12abc.png"]` no file with a
numeric base name exists, so the claimed behaviour gives `0`; the code
returns `12`, because JS `parseInt` reads the leading digits of
`12abc`. -/
theorem getLastNFTNumber_counterexample :
    getLastNFTNumber (.ok ["12abc.png"]) = 12 ∧
    getLastNFTNumberClaimed (.ok ["12abc.png"]) = 0 ∧
    getLastNFTNumber (.ok ["12abc.png"]) ≠
      getLastNFTNumberClaimed (.ok ["12abc.png"]) := by
  refine ⟨rfl, rfl, by decide⟩

/-- The seed is bounded by a left fold of `max`. -/
theorem le_foldl_max (l : List Int) : ∀ a : Int, a ≤ l.foldl max a := by
  induction l with
  | nil => intro a; exact le_refl a
  | cons b t ih =>
    intro a
    exact le_trans (le_max_left a b) (ih (max a b))

/-- Every member is bounded by a left fold of `max`. -/
theorem mem_le_foldl_max (n : Int) (l : List Int) :
    ∀ a : Int, n ∈ l → n ≤ l.foldl max a := by
  induction l with
  | nil => intro a h; cases h
  | cons b t ih =>
    intro a h
    rcases List.mem_cons.mp h with rfl | hm
    · exact le_trans (le_max_right a n) (le_foldl_max t (max a n))
    · exact ih (max a b) hm

/-- A left fold of `max` is its seed or one of the elements. -/
theorem foldl_max_mem (l : List Int) :
    ∀ a : Int, l.foldl max a = a ∨ l.foldl max a ∈ l := by
  induction l with
  | nil => intro a; exact Or.inl rfl
  | cons b t ih =>
    intro a
    rw [List.foldl_cons]
    rcases ih (max a b) with h | h
    · rcases max_choice a b with hm | hm
      · exact Or.inl (h.trans hm)
      · exact Or.inr (by rw [h, hm]; exact List.mem_cons_self b t)
    · exact Or.inr (List.mem_cons_of_mem b h)

/-- C10 amended: `getLastNFTNumber` is total — `0` on a filesystem
error and when no listed file parses to a number — and otherwise
returns the maximum over PNG-suffixed files of the JS-`parseInt` value
of the name with its first `.png` occurrence removed (so `12abc.png`
counts as `12` even though its base name is not numeric). -/
theorem getLastNFTNumber_total_max (files : List String) :
    (parsedNumbers files = [] → getLastNFTNumber (.ok files) = 0) ∧
    (∀ n ∈ parsedNumbers files, n ≤ getLastNFTNumber (.ok files)) ∧
    (parsedNumbers files ≠ [] → getLastNFTNumber (.ok files) ∈ parsedNumbers files) ∧
    getLastNFTNumber (.error ()) = 0 := by
  cases hp : parsedNumbers files with
  | nil =>
    have hzero : getLastNFTNumber (.ok files) = 0 := by
      simp [getLastNFTNumber, hp]
    refine ⟨fun _ => hzero, ?_, fun hne => absurd rfl hne, rfl⟩
    intro n hn
    cases hn
  | cons m rest =>
    have hval : getLastNFTNumber (.ok files) = rest.foldl max m := by
      simp [getLastNFTNumber, hp]
    refine ⟨fun h0 => List.noConfusion h0, ?_, fun _ => ?_, rfl⟩
    · intro n hn
      rw [hval]
      rcases List.mem_cons.mp hn with rfl | hm
      · exact le_foldl_max rest n
      · exact mem_le_foldl_max n rest m hm
    · rw [hval]
      rcases foldl_max_mem rest m with h | h
      · rw [h]; exact List.mem_cons_self m rest
      · exact List.mem_cons_of_mem m h

/-- C10 amended witness: for `["1.png", "3.png", "2.png"]` the parsed
numbers are `[1, 3, 2]` and the returned value, `3`, bounds the member
`3` and is itself a member. -/
theorem getLastNFTNumber_total_max_witness :
    parsedNumbers ["1.png", "3.png", "2.png"] = [1, 3, 2] ∧
    (3 : Int) ∈ parsedNumbers ["1.png", "3.png", "2.png"] ∧
    (3 : Int) ≤ getLastNFTNumber (.ok ["1.png", "3.png", "2.png"]) ∧
    getLastNFTNumber (.ok ["1.png", "3.png", "2.png"]) ∈
      parsedNumbers ["1.png", "3.png", "2.png"] ∧
    getLastNFTNumber (.ok ["1.png", "3.png", "2.png"]) = 3 :=
  ⟨by decide, by decide,
   (getLastNFTNumber_total_max ["1.png", "3.png", "2.png"]).2.1 3 (by decide),
   (getLastNFTNumber_total_max ["1.png", "3.png", "2.png"]).2.2.1 (by decide),
   by decide⟩

/-- C3 counterexample: generating token 7 in local mode stores image
`7.png` in the metadata file; a subsequent `uploadNFTToMinio` call
rewrites that file, changing its image field to the absolute URL — so
an operation of the program does mutate the metadata file, and its
image field, after `generateNFT` wrote it. -/
theorem metadata_mutated_after_write_counterexample :
    imageFieldOf ((generateNFT wFS wRandZero "TS" 7 wConfig).1)
      "out/metadata/7.json" = some "7.png" ∧
    (uploadNFTToMinio wMinio true "out/images/7.png" "out/metadata/7.json"
      ((generateNFT wFS wRandZero "TS" 7 wConfig).1)).2 = true ∧
    imageFieldOf (uploadNFTToMinio wMinio true "out/images/7.png" "out/metadata/7.json"
        ((generateNFT wFS wRandZero "TS" 7 wConfig).1)).1
      "out/metadata/7.json" = some "https://minio.example.com/nft/images/7.png" ∧
    some "7.png" ≠ some "https://minio.example.com/nft/images/7.png" :=
  ⟨rfl, rfl, rfl, by decide⟩

/-- Rewriting the `image` field leaves lookups of other keys alone. -/
theorem find?_map_setImage (url key : String) (hk : key ≠ "image") :
    ∀ (fields : List (String × Json)),
    (fields.map
        (fun kv => if kv.1 = "image" then (kv.1, Json.str url) else kv)).find?
        (fun kv => kv.1 = key) =
      fields.find? (fun kv => kv.1 = key) := by
  intro fields
  induction fields with
  | nil => rfl
  | cons kv t ih =>
    by_cases hkv : kv.1 = "image"
    · simp [List.find?, hkv, Ne.symm hk, ih]
    · have hrw : (if kv.1 = "image" then (kv.1, Json.str url) else kv) = kv :=
        if_neg hkv
      simp only [List.map_cons]
      rw [hrw]
      by_cases hkey : kv.1 = key
      · simp [List.find?, hkey]
      · simp [List.find?, hkey, ih]

/-- Function `jsonSetImage` changes no string field other than `image`. -/
theorem jsonGetStrField_setImage (url key : String) (j : Json) (hk : key ≠ "image") :
    jsonGetStrField (jsonSetImage url j) key = jsonGetStrField j key := by
  cases j with
  | obj fields =>
    simp only [jsonSetImage, jsonGetStrField]
    rw [find?_map_setImage url key hk fields]
  | str s => rfl
  | arr l => rfl

/-- C3 amended: `generateNFT` decides the image value once per call;
the upload step may afterwards rewrite the metadata file at most once,
and only in a bounded way: it leaves the file untouched whenever the
stored image value already starts with `http` (in particular whenever
generation ran with S3 configured), it touches no other file, and when
it does rewrite, every field other than `image` keeps its value. -/
theorem metadataFile_mutation_bounds
    (ep bucket fn mp : String) (fsys : FS) (j : Json) (img : String)
    (hread : fsys.readFile mp = some (.json j))
    (himg : jsonGetStrField j "image" = some img) :
    (strStartsWith img "http" = true →
      minioUpdateMetadata ep bucket fn mp fsys = fsys) ∧
    (∀ p, p ≠ mp → (minioUpdateMetadata ep bucket fn mp fsys).readFile p =
      fsys.readFile p) ∧
    (∀ key, key ≠ "image" → ∃ jNew,
      (minioUpdateMetadata ep bucket fn mp fsys).readFile mp = some (.json jNew) ∧
      jsonGetStrField jNew key = jsonGetStrField j key) := by
  refine ⟨?_, ?_, ?_⟩
  · intro hs
    simp [minioUpdateMetadata, hread, himg, hs]
  · intro p hp
    simp only [minioUpdateMetadata, hread, himg]
    by_cases hcond : (!img.isEmpty && !strStartsWith img "http") = true
    · rw [if_pos hcond]
      exact readFile_writeFile_other _ _ _ _ hp
    · rw [if_neg hcond]
  · intro key hk
    simp only [minioUpdateMetadata, hread, himg]
    by_cases hcond : (!img.isEmpty && !strStartsWith img "http") = true
    · rw [if_pos hcond]
      refine ⟨jsonSetImage
        ("https://" ++ ep ++ "/" ++ bucket ++ "/images/" ++ fn) j, ?_, ?_⟩
      · exact readFile_writeFile_same _ _ _
      · exact jsonGetStrField_setImage _ key j hk
    · rw [if_neg hcond]
      exact ⟨j, hread, rfl⟩

/-- C3 amended witness: generation with S3 configured stores an
`https` image URL, and the upload step then leaves the metadata file
completely unchanged. -/
theorem metadataFile_mutation_bounds_witness :
    ((generateNFT wFS wRandZero "TS" 7 wConfigS3).1).readFile "out/metadata/7.json" =
      some (.json (metadataToJson wResS3.metadata)) ∧
    jsonGetStrField (metadataToJson wResS3.metadata) "image" =
      some "https://minio.example.com/nft/images/7.png" ∧
    strStartsWith "https://minio.example.com/nft/images/7.png" "http" = true ∧
    minioUpdateMetadata "minio.example.com" "nft" "7.png" "out/metadata/7.json"
        ((generateNFT wFS wRandZero "TS" 7 wConfigS3).1) =
      (generateNFT wFS wRandZero "TS" 7 wConfigS3).1 :=
  ⟨rfl, rfl, rfl,
   (metadataFile_mutation_bounds "minio.example.com" "nft" "7.png"
     "out/metadata/7.json" ((generateNFT wFS wRandZero "TS" 7 wConfigS3).1)
     (metadataToJson wResS3.metadata)
     "https://minio.example.com/nft/images/7.png" rfl rfl).1 rfl⟩

end GenNFT
